import Mathlib

/-!
Verification of the `missive` message-encoding and request-signing core
(`src/address.rs`, `src/attachment.rs`, `src/email.rs`,
`src/providers/amazon_ses.rs`) against its natural-language specification.

The Rust code is shallowly embedded: strings stay strings, byte buffers
become `List Nat` (each entry < 256), fallible functions return `Except`,
the filesystem read performed by lazy attachments becomes an explicit
`Fs` parameter, and the four random UUIDs feeding boundary generation
become an explicit `Uuids` parameter (the spec's "injectable randomness
source").
-/

namespace Missive

/-! ### Definitions: the shallow embedding of the source -/

/-- Error type, embedding the variants of `MailError` (src/error.rs) that the
encoding/signing core can produce. -/
inductive MailError where
  | MissingField (field : String)
  | InvalidAddress (msg : String)
  | AttachmentError (msg : String)
  | AttachmentMissingContent (filename : String)
  | AttachmentFileNotFound (path : String)
  | AttachmentReadError (msg : String)
  deriving Repr, DecidableEq

/-- `Address` (src/address.rs): an optional display name and an email string. -/
structure Address where
  name : Option String
  email : String
  deriving Repr, DecidableEq

/-- Embeds Rust `str::replace(pattern: char, to: &str)`: every occurrence of
the single-character pattern `c` in `s` is replaced by `r`. -/
def rustReplaceChar (s : String) (c : Char) (r : String) : String :=
  ⟨s.data.flatMap fun ch => if ch = c then r.data else [ch]⟩

/-- The escaping step of `Address::formatted_rfc5322` (src/address.rs:260):
`name.replace('\\', "\\\\").replace('"', "\\\"")` — backslashes first,
then double quotes, in that order. -/
def escapeName (name : String) : String :=
  rustReplaceChar (rustReplaceChar name '\\' "\\\\") '"' "\\\""

/-- `Address::formatted` (src/address.rs:239-245). -/
def Address.formatted (a : Address) : String :=
  match a.name with
  | some n => if n = "" then a.email else n ++ " <" ++ a.email ++ ">"
  | none => a.email

/-- `Address::formatted_rfc5322` (src/address.rs:255-265). -/
def Address.formatted_rfc5322 (a : Address) : String :=
  match a.name with
  | some n =>
      if n = "" then a.email
      else "\"" ++ escapeName n ++ "\" <" ++ a.email ++ ">"
  | none => a.email

/-- RFC 5322 quoted-string content parser (unescaping): a backslash quotes
the character that follows it; every other character stands for itself. -/
def unquoteChars : List Char → List Char
  | [] => []
  | c :: rest =>
      if c = '\\' then
        match rest with
        | [] => []
        | d :: rest2 => d :: unquoteChars rest2
      else c :: unquoteChars rest

/-- String-level unescaping of RFC 5322 quoted-string content. -/
def unquoteName (s : String) : String := ⟨unquoteChars s.data⟩

/-- Single-character expansion performed by the composition of the two
replaces in `escapeName`. -/
def escChar (c : Char) : List Char :=
  if c = '\\' then ['\\', '\\'] else if c = '"' then ['\\', '"'] else [c]

/-- `AttachmentType` (src/attachment.rs): disposition of an attachment. -/
inductive AttachmentType where
  | attachment
  | inline
  deriving Repr, DecidableEq

/-- Outcome of reading a file path, modelling `std::fs::read`: success with
the file's bytes, a not-found error, or any other I/O error. -/
inductive FsResult where
  | found (data : List Nat)
  | notFound
  | readFailure (msg : String)

/-- The filesystem as seen by lazy attachments: a map from path to read
outcome. -/
def Fs := String → FsResult

/-- `Attachment` (src/attachment.rs). Bytes are `List Nat`; `data` is empty
when the attachment is path-based (lazy). -/
structure Attachment where
  filename : String
  content_type : String
  data : List Nat
  path : Option String
  disposition : AttachmentType
  content_id : Option String
  headers : List (String × String)
  deriving Repr

/-- `Attachment::is_inline` (src/attachment.rs:250-252). -/
def Attachment.is_inline (a : Attachment) : Bool :=
  a.disposition = AttachmentType.inline

/-- `Attachment::get_data` (src/attachment.rs:199-214): lazy attachments read
from the filesystem; eager ones clone their bytes; neither source present is
`AttachmentMissingContent`. -/
def Attachment.get_data (a : Attachment) (fs : Fs) : Except MailError (List Nat) :=
  match a.path with
  | some p =>
      match fs p with
      | .found d => .ok d
      | .notFound => .error (.AttachmentFileNotFound p)
      | .readFailure m => .error (.AttachmentReadError (p ++ ": " ++ m))
  | none =>
      if a.data.isEmpty then .error (.AttachmentMissingContent a.filename)
      else .ok a.data

/-- Base64 character table (standard alphabet). -/
def b64Char (n : Nat) : Char :=
  "ABCDEFGHIJKLMNOPQRSTUVWXYZabcdefghijklmnopqrstuvwxyz0123456789+/".data.getD n 'A'

/-- Standard base64 encoding with `=` padding, three input bytes at a time. -/
def b64Chunks : List Nat → List Char
  | [] => []
  | [a] => [b64Char (a / 4), b64Char (a % 4 * 16), '=', '=']
  | [a, b] => [b64Char (a / 4), b64Char (a % 4 * 16 + b / 16), b64Char (b % 16 * 4), '=']
  | a :: b :: c :: rest =>
      b64Char (a / 4) :: b64Char (a % 4 * 16 + b / 16) ::
      b64Char (b % 16 * 4 + c / 64) :: b64Char (c % 64) :: b64Chunks rest

/-- Base64 of a byte list, as a string. -/
def base64Encode (l : List Nat) : String := ⟨b64Chunks l⟩

/-- `Attachment::base64_data` (src/attachment.rs:219-223):
`self.get_data().unwrap_or_default()` then base64 — a read failure is
silently encoded as the empty byte sequence. -/
def Attachment.base64_data (a : Attachment) (fs : Fs) : String :=
  base64Encode ((a.get_data fs).toOption.getD [])

/-- `Email` (src/email.rs), restricted to the fields the MIME builder reads.
Rust's `from` is a Lean keyword, hence `fromAddr`. The custom-header
`HashMap` is modelled as an association list in iteration order. -/
structure Email where
  fromAddr : Option Address
  «to» : List Address
  cc : List Address
  bcc : List Address
  reply_to : List Address
  subject : String
  text_body : Option String
  html_body : Option String
  attachments : List Attachment
  headers : List (String × String)

/-- The four `uuid::Uuid::new_v4().to_string().replace("-", "")` draws made
by `build_mime_message` (src/providers/amazon_ses.rs:352,437-439), as an
injectable randomness source. -/
structure Uuids where
  part : String
  mixed : String
  alt : String
  related : String

/-- Rust `Vec<String>::join(sep)`. -/
def joinSep (sep : String) : List String → String
  | [] => ""
  | [x] => x
  | x :: y :: ys => x ++ sep ++ joinSep sep (y :: ys)

/-- One inline attachment part, as emitted by the loop at
src/providers/amazon_ses.rs:483-497 (separator line included). -/
def inlinePart (fs : Fs) (related_boundary : String) (a : Attachment) : String :=
  "--" ++ related_boundary ++ "\r\n" ++
  "Content-Type: " ++ a.content_type ++ "\r\n" ++
  "Content-Transfer-Encoding: base64\r\n" ++
  "Content-Disposition: inline; filename=\"" ++ a.filename ++ "\"\r\n" ++
  (match a.content_id with
   | some cid => "Content-ID: <" ++ cid ++ ">\r\n"
   | none => "") ++
  "\r\n" ++ a.base64_data fs ++ "\r\n"

/-- One regular attachment part, as emitted by the loop at
src/providers/amazon_ses.rs:529-540 (separator line included). -/
def regularPart (fs : Fs) (mixed_boundary : String) (a : Attachment) : String :=
  "--" ++ mixed_boundary ++ "\r\n" ++
  "Content-Type: " ++ a.content_type ++ "\r\n" ++
  "Content-Transfer-Encoding: base64\r\n" ++
  "Content-Disposition: attachment; filename=\"" ++ a.filename ++ "\"\r\n" ++
  "\r\n" ++ a.base64_data fs ++ "\r\n"

/-- The header block of the message (src/providers/amazon_ses.rs:355-391):
From, To, optional Cc, optional Reply-To (first address only), Subject,
MIME-Version, then the custom headers. -/
def headerSection (sender : Address) (email : Email) : String :=
  "From: " ++ sender.formatted ++ "\r\n" ++
  "To: " ++ joinSep ", " (email.to.map Address.formatted) ++ "\r\n" ++
  (if email.cc.isEmpty then ""
   else "Cc: " ++ joinSep ", " (email.cc.map Address.formatted) ++ "\r\n") ++
  (match email.reply_to.head? with
   | some r => "Reply-To: " ++ r.formatted ++ "\r\n"
   | none => "") ++
  "Subject: " ++ email.subject ++ "\r\n" ++
  "MIME-Version: 1.0\r\n" ++
  String.join (email.headers.map fun (n, v) => n ++ ": " ++ v ++ "\r\n")

/-- The content section of the message without attachments
(src/providers/amazon_ses.rs:400-434). The Rust `as_ref().unwrap()` calls
are guarded by `has_text`/`has_html`; `getD ""` renders them totally. -/
def simpleContent (boundary : String) (email : Email) : String :=
  let has_text := email.text_body.isSome
  let has_html := email.html_body.isSome
  if has_text && has_html then
    "Content-Type: multipart/alternative; boundary=\"" ++ boundary ++ "\"\r\n\r\n" ++
    "--" ++ boundary ++ "\r\n" ++
    "Content-Type: text/plain; charset=utf-8\r\n" ++
    "Content-Transfer-Encoding: quoted-printable\r\n\r\n" ++
    email.text_body.getD "" ++ "\r\n" ++
    "--" ++ boundary ++ "\r\n" ++
    "Content-Type: text/html; charset=utf-8\r\n" ++
    "Content-Transfer-Encoding: quoted-printable\r\n\r\n" ++
    email.html_body.getD "" ++ "\r\n" ++
    "--" ++ boundary ++ "--\r\n"
  else if has_html then
    "Content-Type: text/html; charset=utf-8\r\n" ++
    "Content-Transfer-Encoding: quoted-printable\r\n\r\n" ++
    email.html_body.getD ""
  else if has_text then
    "Content-Type: text/plain; charset=utf-8\r\n" ++
    "Content-Transfer-Encoding: quoted-printable\r\n\r\n" ++
    email.text_body.getD ""
  else
    "Content-Type: text/plain; charset=utf-8\r\n\r\n"

/-- The content section of the message with attachments
(src/providers/amazon_ses.rs:436-543). -/
def attachmentContent (us : Uuids) (fs : Fs) (email : Email) : String :=
  let has_text := email.text_body.isSome
  let has_html := email.html_body.isSome
  let has_inline := email.attachments.any Attachment.is_inline
  let mixed_boundary := "----=_Mixed_" ++ us.mixed
  let alt_boundary := "----=_Alt_" ++ us.alt
  let related_boundary := "----=_Related_" ++ us.related
  "Content-Type: multipart/mixed; boundary=\"" ++ mixed_boundary ++ "\"\r\n\r\n" ++
  "--" ++ mixed_boundary ++ "\r\n" ++
  (if has_inline && has_html then
    "Content-Type: multipart/related; boundary=\"" ++ related_boundary ++ "\"\r\n\r\n" ++
    "--" ++ related_boundary ++ "\r\n" ++
    (if has_text then
      "Content-Type: multipart/alternative; boundary=\"" ++ alt_boundary ++ "\"\r\n\r\n" ++
      "--" ++ alt_boundary ++ "\r\n" ++
      "Content-Type: text/plain; charset=utf-8\r\n\r\n" ++
      email.text_body.getD "" ++ "\r\n" ++
      "--" ++ alt_boundary ++ "\r\n" ++
      "Content-Type: text/html; charset=utf-8\r\n\r\n" ++
      email.html_body.getD "" ++ "\r\n" ++
      "--" ++ alt_boundary ++ "--\r\n"
    else
      "Content-Type: text/html; charset=utf-8\r\n\r\n" ++
      email.html_body.getD "" ++ "\r\n") ++
    String.join ((email.attachments.filter Attachment.is_inline).map
      (inlinePart fs related_boundary)) ++
    "--" ++ related_boundary ++ "--\r\n"
  else if has_text && has_html then
    "Content-Type: multipart/alternative; boundary=\"" ++ alt_boundary ++ "\"\r\n\r\n" ++
    "--" ++ alt_boundary ++ "\r\n" ++
    "Content-Type: text/plain; charset=utf-8\r\n\r\n" ++
    email.text_body.getD "" ++ "\r\n" ++
    "--" ++ alt_boundary ++ "\r\n" ++
    "Content-Type: text/html; charset=utf-8\r\n\r\n" ++
    email.html_body.getD "" ++ "\r\n" ++
    "--" ++ alt_boundary ++ "--\r\n"
  else if has_html then
    "Content-Type: text/html; charset=utf-8\r\n\r\n" ++
    email.html_body.getD "" ++ "\r\n"
  else if has_text then
    "Content-Type: text/plain; charset=utf-8\r\n\r\n" ++
    email.text_body.getD "" ++ "\r\n"
  else "") ++
  String.join ((email.attachments.filter fun a => !a.is_inline).map
    (regularPart fs mixed_boundary)) ++
  "--" ++ mixed_boundary ++ "--\r\n"

/-- `build_mime_message` (src/providers/amazon_ses.rs:341-546). The returned
`Vec<u8>` is the UTF-8 of the assembled string, so the embedding keeps the
string. `bcc` is never consulted. -/
def buildMimeMessage (us : Uuids) (fs : Fs) (email : Email) : Except MailError String :=
  match email.fromAddr with
  | none => .error (.MissingField "from")
  | some sender =>
      if email.to.isEmpty then .error (.MissingField "to")
      else
        let boundary := "----=_Part_" ++ us.part
        let has_attachments := !email.attachments.isEmpty
        .ok (headerSection sender email ++
          (if !has_attachments then simpleContent boundary email
           else attachmentContent us fs email))

/-- 32-bit right rotation. -/
def rotr32 (n w : Nat) : Nat := ((w >>> n) ||| (w <<< (32 - n))) % 2 ^ 32

/-- 32-bit bitwise complement. -/
def not32 (w : Nat) : Nat := w ^^^ 0xffffffff

def sha256Ch (x y z : Nat) : Nat := (x &&& y) ^^^ (not32 x &&& z)

def sha256Maj (x y z : Nat) : Nat := (x &&& y) ^^^ (x &&& z) ^^^ (y &&& z)

def bigSigma0 (x : Nat) : Nat := rotr32 2 x ^^^ rotr32 13 x ^^^ rotr32 22 x

def bigSigma1 (x : Nat) : Nat := rotr32 6 x ^^^ rotr32 11 x ^^^ rotr32 25 x

def smallSigma0 (x : Nat) : Nat := rotr32 7 x ^^^ rotr32 18 x ^^^ (x >>> 3)

def smallSigma1 (x : Nat) : Nat := rotr32 17 x ^^^ rotr32 19 x ^^^ (x >>> 10)

/-- SHA-256 round constants (FIPS 180-4 §4.2.2), in decimal. -/
def sha256K : List Nat :=
  [1116352408, 1899447441, 3049323471, 3921009573, 961987163, 1508970993,
   2453635748, 2870763221, 3624381080, 310598401, 607225278, 1426881987,
   1925078388, 2162078206, 2614888103, 3248222580, 3835390401, 4022224774,
   264347078, 604807628, 770255983, 1249150122, 1555081692, 1996064986,
   2554220882, 2821834349, 2952996808, 3210313671, 3336571891, 3584528711,
   113926993, 338241895, 666307205, 773529912, 1294757372, 1396182291,
   1695183700, 1986661051, 2177026350, 2456956037, 2730485921, 2820302411,
   3259730800, 3345764771, 3516065817, 3600352804, 4094571909, 275423344,
   430227734, 506948616, 659060556, 883997877, 958139571, 1322822218,
   1537002063, 1747873779, 1955562222, 2024104815, 2227730452, 2361852424,
   2428436474, 2756734187, 3204031479, 3329325298]

/-- Big-endian byte decomposition of `n` into `k` bytes. -/
def toBytesBE (k n : Nat) : List Nat :=
  (List.range k).map fun i => n >>> (8 * (k - 1 - i)) % 256

/-- SHA-256 message padding: `0x80`, zeros to 56 mod 64, then the bit length
as eight big-endian bytes. -/
def sha256Pad (msg : List Nat) : List Nat :=
  let zeros := (128 + 56 - (msg.length + 1) % 64) % 64
  msg ++ 0x80 :: List.replicate zeros 0 ++ toBytesBE 8 (msg.length * 8)

/-- Split into blocks of 64 bytes. -/
def chunk64 (l : List Nat) : List (List Nat) :=
  if _hl : l = [] then [] else l.take 64 :: chunk64 (l.drop 64)
termination_by l.length
decreasing_by
  simp only [List.length_drop]
  exact Nat.sub_lt (List.length_pos.mpr _hl) (by omega)

/-- Big-endian 32-bit words from bytes. -/
def bytesToWords : List Nat → List Nat
  | a :: b :: c :: d :: rest =>
      (a * 2 ^ 24 + b * 2 ^ 16 + c * 2 ^ 8 + d) :: bytesToWords rest
  | _ => []

/-- The 64-entry message schedule, extended from the 16 block words. -/
def sha256Schedule (w16 : List Nat) : Array Nat :=
  (List.range 48).foldl
    (fun a i =>
      a.push ((smallSigma1 (a.getD (i + 14) 0) + a.getD (i + 9) 0 +
        smallSigma0 (a.getD (i + 1) 0) + a.getD i 0) % 2 ^ 32))
    w16.toArray

/-- The eight 32-bit working variables of SHA-256. -/
structure Sha256State where
  a : Nat
  b : Nat
  c : Nat
  d : Nat
  e : Nat
  f : Nat
  g : Nat
  h : Nat

/-- One SHA-256 compression round. -/
def sha256Round (s : Sha256State) (k w : Nat) : Sha256State :=
  let t1 := (s.h + bigSigma1 s.e + sha256Ch s.e s.f s.g + k + w) % 2 ^ 32
  let t2 := (bigSigma0 s.a + sha256Maj s.a s.b s.c) % 2 ^ 32
  ⟨(t1 + t2) % 2 ^ 32, s.a, s.b, s.c, (s.d + t1) % 2 ^ 32, s.e, s.f, s.g⟩

/-- Compress one 64-byte block into the running hash state. -/
def sha256Compress (st : Sha256State) (block : List Nat) : Sha256State :=
  let w := sha256Schedule (bytesToWords block)
  let s := (List.range 64).foldl
    (fun s i => sha256Round s (sha256K.getD i 0) (w.getD i 0)) st
  ⟨(st.a + s.a) % 2 ^ 32, (st.b + s.b) % 2 ^ 32, (st.c + s.c) % 2 ^ 32,
   (st.d + s.d) % 2 ^ 32, (st.e + s.e) % 2 ^ 32, (st.f + s.f) % 2 ^ 32,
   (st.g + s.g) % 2 ^ 32, (st.h + s.h) % 2 ^ 32⟩

/-- SHA-256 initial hash value (FIPS 180-4 §5.3.3), in decimal. -/
def sha256Init : Sha256State :=
  ⟨1779033703, 3144134277, 1013904242, 2773480762,
   1359893119, 2600822924, 528734635, 1541459225⟩

/-- SHA-256 of a byte list, as 32 bytes. -/
def sha256 (msg : List Nat) : List Nat :=
  let st := (chunk64 (sha256Pad msg)).foldl sha256Compress sha256Init
  toBytesBE 4 st.a ++ toBytesBE 4 st.b ++ toBytesBE 4 st.c ++ toBytesBE 4 st.d ++
  toBytesBE 4 st.e ++ toBytesBE 4 st.f ++ toBytesBE 4 st.g ++ toBytesBE 4 st.h

/-- HMAC-SHA256 (RFC 2104): block size 64; a longer key is first hashed. -/
def hmacSha256 (key msg : List Nat) : List Nat :=
  let k0 := if 64 < key.length then sha256 key else key
  let kp := k0 ++ List.replicate (64 - k0.length) 0
  sha256 ((kp.map (· ^^^ 0x5c)) ++ sha256 ((kp.map (· ^^^ 0x36)) ++ msg))

/-- Lowercase hex digit table. -/
def hexChar (n : Nat) : Char := "0123456789abcdef".data.getD n '0'

/-- Lowercase hex of a byte list (the `hex::encode` of the source). -/
def hexOfBytes (l : List Nat) : String :=
  ⟨l.flatMap fun b => [hexChar (b / 16), hexChar (b % 16)]⟩

/-- UTF-8 bytes of a string (Rust `str::as_bytes`). -/
def strBytes (s : String) : List Nat := s.toUTF8.toList.map UInt8.toNat

/-- `SERVICE_NAME` constant (src/providers/amazon_ses.rs:65). -/
def SERVICE_NAME : String := "ses"

/-- `ENCODING` constant (src/providers/amazon_ses.rs:68). -/
def ENCODING : String := "AWS4-HMAC-SHA256"

/-- The credential fields of `AmazonSesMailer` that enter signing. -/
structure AmazonSesMailer where
  region : String
  access_key : String
  secret : String

/-- `AmazonSesMailer::host_header` (src/providers/amazon_ses.rs:161-163). -/
def AmazonSesMailer.host_header (m : AmazonSesMailer) : String :=
  "email." ++ m.region ++ ".amazonaws.com"

/-- A UTC date-time, already broken into calendar fields
(`chrono::DateTime<Utc>`). -/
structure DateTimeUtc where
  year : Nat
  month : Nat
  day : Nat
  hour : Nat
  minute : Nat
  second : Nat

/-- Zero-pad a decimal rendering to `width` digits (chrono's `%Y`/`%m`/...). -/
def padNum (width n : Nat) : String :=
  let s := toString n
  ⟨List.replicate (width - s.length) '0'⟩ ++ s

/-- `amz_date` (src/providers/amazon_ses.rs:332-334): `%Y%m%d`. -/
def amz_date (dt : DateTimeUtc) : String :=
  padNum 4 dt.year ++ padNum 2 dt.month ++ padNum 2 dt.day

/-- `amz_datetime` (src/providers/amazon_ses.rs:336-338): `%Y%m%dT%H%M%SZ`. -/
def amz_datetime (dt : DateTimeUtc) : String :=
  padNum 4 dt.year ++ padNum 2 dt.month ++ padNum 2 dt.day ++ "T" ++
  padNum 2 dt.hour ++ padNum 2 dt.minute ++ padNum 2 dt.second ++ "Z"

/-- Rust `str::to_lowercase`; on the ASCII header names it is applied to,
this is ASCII lowercasing. -/
def rustToLowercase (s : String) : String := ⟨s.data.map Char.toLower⟩

/-- Byte-lexicographic `<` on strings (Rust `String` ordering; UTF-8 byte
order coincides with code-point order). -/
def charsLtB : List Char → List Char → Bool
  | _, [] => false
  | [], _ :: _ => true
  | a :: as, b :: bs =>
      if a.toNat < b.toNat then true
      else if a.toNat = b.toNat then charsLtB as bs
      else false

def strLtB (a b : String) : Bool := charsLtB a.data b.data

/-- Stable insertion preserving the original order of equal keys, sorting by
the lowercased header name (the `sort_by` at src/providers/amazon_ses.rs:248). -/
def insertHeader (x : String × String) :
    List (String × String) → List (String × String)
  | [] => [x]
  | y :: ys =>
      if strLtB (rustToLowercase y.1) (rustToLowercase x.1)
      then y :: insertHeader x ys
      else x :: y :: ys

def sortHeaders : List (String × String) → List (String × String)
  | [] => []
  | x :: xs => insertHeader x (sortHeaders xs)

/-- The header set built by `sign_request` before sorting
(src/providers/amazon_ses.rs:235-245): Content-Type, Host, X-Amz-Date,
Content-Length, and the security token when present. -/
def sesHeaders (m : AmazonSesMailer) (body : String) (dt : DateTimeUtc)
    (security_token : Option String) : List (String × String) :=
  [("Content-Type", "application/x-www-form-urlencoded"),
   ("Host", m.host_header),
   ("X-Amz-Date", amz_datetime dt),
   ("Content-Length", toString (strBytes body).length)] ++
  (match security_token with
   | some token => [("X-Amz-Security-Token", token)]
   | none => [])

/-- `AmazonSesMailer::generate_signature` (src/providers/amazon_ses.rs:296-318):
the four-step HMAC chain and the final hex signature. -/
def AmazonSesMailer.generate_signature (m : AmazonSesMailer)
    (string_to_sign : String) (dt : DateTimeUtc) : String :=
  let date := amz_date dt
  let k_secret := "AWS4" ++ m.secret
  let k_date := hmacSha256 (strBytes k_secret) (strBytes date)
  let k_region := hmacSha256 k_date (strBytes m.region)
  let k_service := hmacSha256 k_region (strBytes SERVICE_NAME)
  let k_signing := hmacSha256 k_service (strBytes "aws4_request")
  hexOfBytes (hmacSha256 k_signing (strBytes string_to_sign))

/-- `AmazonSesMailer::sign_request` (src/providers/amazon_ses.rs:224-294):
returns the sorted header list with the Authorization header appended. -/
def AmazonSesMailer.sign_request (m : AmazonSesMailer) (body : String)
    (dt : DateTimeUtc) (security_token : Option String) :
    List (String × String) :=
  let amz_date_str := amz_datetime dt
  let date := amz_date dt
  let headers := sortHeaders (sesHeaders m body dt security_token)
  let signed_headers := joinSep ";" (headers.map fun p => rustToLowercase p.1)
  let canonical_headers :=
    joinSep "\n" (headers.map fun p => rustToLowercase p.1 ++ ":" ++ p.2)
  let body_hash := hexOfBytes (sha256 (strBytes body))
  let canonical_request :=
    "POST\n/\n\n" ++ (canonical_headers ++ "\n\n") ++ signed_headers ++ "\n" ++
      body_hash
  let request_hash := hexOfBytes (sha256 (strBytes canonical_request))
  let credential_scope :=
    date ++ "/" ++ m.region ++ "/" ++ SERVICE_NAME ++ "/aws4_request"
  let string_to_sign :=
    ENCODING ++ "\n" ++ amz_date_str ++ "\n" ++ credential_scope ++ "\n" ++
      request_hash
  let signature := m.generate_signature string_to_sign dt
  let authorization :=
    ENCODING ++ " Credential=" ++ m.access_key ++ "/" ++ credential_scope ++
      ", SignedHeaders=" ++ signed_headers ++ ", Signature=" ++ signature
  headers ++ [("Authorization", authorization)]

/-- Plain concatenation of a list of strings. -/
def concatStrings : List String → String
  | [] => ""
  | s :: rest => s ++ concatStrings rest

/-- The Authorization header value exactly as spec §4.3 describes it:
lowercase and sort the header set by name (step 1); `canonicalHeaders` is
each `"name:value\n"` concatenated (step 2); `signedHeaders` joins the
names with `;` (step 3); `canonicalRequest`, `credentialScope` and
`stringToSign` per steps 4-6; the four-step HMAC key chain (step 7); the
hex signature (step 8); and the assembled header value (step 9). -/
def specAuthorization (accessKey secret region service dateStr amzDateTime : String)
    (headers : List (String × String)) (body : String) : String :=
  let sorted := sortHeaders (headers.map fun p => (rustToLowercase p.1, p.2))
  let canonicalHeaders := concatStrings (sorted.map fun p => (p.1 ++ ":" ++ p.2) ++ "\n")
  let signedHeaders := joinSep ";" (sorted.map fun p => p.1)
  let canonicalRequest :=
    "POST\n/\n\n" ++ (canonicalHeaders ++ "\n") ++ signedHeaders ++ "\n" ++
      hexOfBytes (sha256 (strBytes body))
  let credentialScope := dateStr ++ "/" ++ region ++ "/" ++ service ++ "/aws4_request"
  let stringToSign :=
    "AWS4-HMAC-SHA256" ++ "\n" ++ amzDateTime ++ "\n" ++ credentialScope ++ "\n" ++
      hexOfBytes (sha256 (strBytes canonicalRequest))
  let k0 := hmacSha256 (strBytes ("AWS4" ++ secret)) (strBytes dateStr)
  let k1 := hmacSha256 k0 (strBytes region)
  let k2 := hmacSha256 k1 (strBytes service)
  let k3 := hmacSha256 k2 (strBytes "aws4_request")
  let signature := hexOfBytes (hmacSha256 k3 (strBytes stringToSign))
  "AWS4-HMAC-SHA256" ++ " Credential=" ++ accessKey ++ "/" ++ credentialScope ++
    ", SignedHeaders=" ++ signedHeaders ++ ", Signature=" ++ signature

/-- A fixed draw for the injectable boundary randomness: 32 lowercase hex
characters each, as `uuid.to_string().replace("-", "")` produces. -/
def sampleUuids : Uuids :=
  ⟨"0f8fad5bd9cb469fa16570867728950e", "7c9e6679742540de944be07fc1f90ae7",
   "16fd27068baf433b82eb8c7fada847da", "91c274f29a0d4ce8a1f6a63fe7a78f98"⟩

/-- A filesystem on which every read fails with not-found. -/
def emptyFs : Fs := fun _ => .notFound

/-- Sample sender. -/
def sampleFrom : Address := ⟨none, "sender@example.com"⟩

/-- Sample recipient. -/
def sampleTo : Address := ⟨some "Recipient", "rcpt@example.com"⟩

/-- A minimal valid text-only email. -/
def sampleEmail : Email :=
  { fromAddr := some sampleFrom, «to» := [sampleTo], cc := [], bcc := [],
    reply_to := [], subject := "Hello", text_body := some "Hi there",
    html_body := none, attachments := [], headers := [] }

/-- A lazy attachment whose backing file cannot be read. -/
def unreadableAttachment : Attachment :=
  { filename := "report.pdf", content_type := "application/pdf", data := [],
    path := some "/tmp/missing.pdf", disposition := .attachment,
    content_id := none, headers := [] }

/-- `sampleEmail` with the unreadable lazy attachment added. -/
def lazyEmail : Email := { sampleEmail with attachments := [unreadableAttachment] }

/-- An in-memory inline PNG attachment with a content id. -/
def inlineAttachment : Attachment :=
  { filename := "logo.png", content_type := "image/png",
    data := [137, 80, 78, 71], path := none, disposition := .inline,
    content_id := some "logo.png", headers := [] }

/-- A text-only email (no HTML) carrying one inline attachment:
T=1, H=0, A=1, I=1. -/
def textInlineEmail : Email := { sampleEmail with attachments := [inlineAttachment] }

/-- Replaces an inline attachment's content and identity by blanks,
keeping only its disposition and custom headers. -/
def scrubInline (a : Attachment) : Attachment :=
  if a.is_inline then
    { filename := "", content_type := "", data := [], path := none,
      disposition := a.disposition, content_id := none, headers := a.headers }
  else a

/-- Email with two reply-to addresses. -/
def replyEmail : Email :=
  { sampleEmail with reply_to := [⟨none, "first@example.com"⟩, ⟨none, "second@example.com"⟩] }

/-- The sixteen lowercase hex digits. -/
def hexDigits : List Char := "0123456789abcdef".data

/-- Strings made only of lowercase hex digits — the shape of
`uuid.to_string().replace("-", "")`. -/
def HexLower (s : String) : Prop := ∀ c ∈ s.data, c ∈ hexDigits

/-- The boundary tokens actually used at the nesting levels of the built
message, following the branch structure of `build_mime_message`:
no attachments uses only the `Part` boundary (and only when both bodies
exist); with attachments the `Mixed` boundary is always active, `Related`
when inline attachments and HTML are present, and `Alt` when both bodies
are present. -/
def activeBoundaries (us : Uuids) (email : Email) : List String :=
  let has_text := email.text_body.isSome
  let has_html := email.html_body.isSome
  let has_attachments := !email.attachments.isEmpty
  let has_inline := email.attachments.any Attachment.is_inline
  if !has_attachments then
    if has_text && has_html then ["----=_Part_" ++ us.part] else []
  else
    ["----=_Mixed_" ++ us.mixed] ++
    (if has_inline && has_html then
      ["----=_Related_" ++ us.related] ++
        (if has_text then ["----=_Alt_" ++ us.alt] else [])
    else if has_text && has_html then ["----=_Alt_" ++ us.alt]
    else [])

/-- Two boundary tokens confuse neither way: neither is a substring (hence
neither equals) the other. -/
def BoundaryIndependent (x y : String) : Prop :=
  ¬ (x.data <:+: y.data) ∧ ¬ (y.data <:+: x.data)

instance (s : String) : Decidable (HexLower s) := by
  unfold HexLower
  infer_instance

/-- A regular in-memory PDF attachment. -/
def regularAttachment : Attachment :=
  { filename := "report.pdf", content_type := "application/pdf",
    data := [1, 2, 3], path := none, disposition := .attachment,
    content_id := none, headers := [] }

/-- An email exercising all three active nesting levels: text and HTML
bodies, one inline and one regular attachment. -/
def fullEmail : Email :=
  { sampleEmail with
      html_body := some "<h1>Hi</h1>"
      attachments := [inlineAttachment, regularAttachment] }

/-- Rust `str::splitn(2, '@')` as used by `to_ascii`: the text before the
first occurrence of `c` and everything after it, or `none` when `c` does
not occur. -/
def splitFirstAt (c : Char) : List Char → Option (List Char × List Char)
  | [] => none
  | x :: rest =>
      if x = c then some ([], rest)
      else
        match splitFirstAt c rest with
        | some (pre, post) => some (x :: pre, post)
        | none => none

/-- `Address::to_ascii` (src/address.rs:173-194). The external
`idna::domain_to_ascii` of the `idna` crate is an explicit function
parameter; its failure is mapped to `InvalidAddress` exactly as the
source's `map_err` does. -/
def Address.to_ascii (idna : String → Except String String) (a : Address) :
    Except MailError String :=
  match splitFirstAt '@' a.email.data with
  | none => .error (.InvalidAddress ("'" ++ a.email ++ "' is missing @ symbol"))
  | some (localPart, domain) =>
      match idna ⟨domain⟩ with
      | .error e =>
          .error (.InvalidAddress
            ("Failed to convert domain '" ++ (⟨domain⟩ : String) ++ "' to ASCII: " ++ e))
      | .ok d => .ok ((⟨localPart⟩ : String) ++ "@" ++ d)

/-- `Address::basic_sanity_check` (src/address.rs:79-81). -/
def Address.basic_sanity_check (email : String) : Bool :=
  !email.isEmpty && email.contains '@'

/-- `Address::new` (src/address.rs:39-51): stores the email verbatim; a
failing sanity check only logs a warning and changes nothing. -/
def Address.new (email : String) : Address := ⟨none, email⟩

/-- `Address::with_name` (src/address.rs:58-73): same, with a name. -/
def Address.with_name (name email : String) : Address := ⟨some name, email⟩

/-- `From<&str> for Address` (src/address.rs:275-279): delegates to
`Address::new`. -/
def Address.fromStr (email : String) : Address := Address.new email

/-- `Address::parse` (src/address.rs:107-120); the external
`EmailAddress::is_valid` of the `email_address` crate is an explicit
function parameter. -/
def Address.parse (isValid : String → Bool) (email : String) :
    Except MailError Address :=
  if isValid email then .ok ⟨none, email⟩
  else .error (.InvalidAddress ("'" ++ email ++ "' is not a valid email address"))

/-! ### Theorems -/

theorem escapeName_eq_flatMap (name : String) :
    escapeName name = ⟨name.data.flatMap escChar⟩ := by
  unfold escapeName rustReplaceChar
  congr 1
  rw [List.flatMap_assoc]
  apply List.flatMap_congr
  intro c _
  by_cases hb : c = '\\'
  · subst hb; rfl
  · by_cases hq : c = '"'
    · subst hq; rfl
    · simp [escChar, hb, hq]

theorem unquoteChars_cons_backslash (d : Char) (rest : List Char) :
    unquoteChars ('\\' :: d :: rest) = d :: unquoteChars rest := rfl

theorem unquoteChars_cons_other (c : Char) (rest : List Char) (h : c ≠ '\\') :
    unquoteChars (c :: rest) = c :: unquoteChars rest := by
  cases rest with
  | nil => simp [unquoteChars, h]
  | cons d r => simp [unquoteChars, h]

theorem unquoteChars_escChar (l : List Char) :
    unquoteChars (l.flatMap escChar) = l := by
  induction l with
  | nil => rfl
  | cons c rest ih =>
      rw [List.flatMap_cons]
      by_cases hb : c = '\\'
      · subst hb
        rw [show escChar '\\' = ['\\', '\\'] from rfl]
        rw [List.cons_append, List.cons_append, List.nil_append,
          unquoteChars_cons_backslash, ih]
      · by_cases hq : c = '"'
        · subst hq
          rw [show escChar '"' = ['\\', '"'] from rfl]
          rw [List.cons_append, List.cons_append, List.nil_append,
            unquoteChars_cons_backslash, ih]
        · rw [show escChar c = [c] by simp [escChar, hb, hq]]
          rw [List.cons_append, List.nil_append,
            unquoteChars_cons_other c _ hb, ih]

/-- Escaping then parsing back recovers the original name. -/
theorem unquote_escape (name : String) :
    unquoteName (escapeName name) = name := by
  rw [escapeName_eq_flatMap]
  unfold unquoteName
  rw [show (⟨name.data.flatMap escChar⟩ : String).data = name.data.flatMap escChar from rfl]
  rw [unquoteChars_escChar]

theorem joinSep_newline_concat (x : String) (xs : List String) :
    joinSep "\n" (x :: xs) ++ "\n\n" =
      concatStrings ((x :: xs).map (· ++ "\n")) ++ "\n" := by
  induction xs generalizing x with
  | nil =>
      apply String.ext
      simp [joinSep, concatStrings, String.data_append, List.append_assoc]
  | cons y ys ih =>
      have hL : joinSep "\n" (x :: y :: ys) = x ++ "\n" ++ joinSep "\n" (y :: ys) := rfl
      have hR : concatStrings ((x :: y :: ys).map (· ++ "\n")) =
          (x ++ "\n") ++ concatStrings ((y :: ys).map (· ++ "\n")) := rfl
      rw [hL, hR, String.append_assoc (x ++ "\n") (joinSep "\n" (y :: ys)) "\n\n", ih,
        String.append_assoc (x ++ "\n") (concatStrings ((y :: ys).map (· ++ "\n"))) "\n"]

/-- C1. For every form-encoded body, UTC date-time, region, access key,
secret and optional security token, `sign_request` emits exactly the sorted
header set plus an `Authorization` header whose value is the byte-exact
spec §4.3 algorithm (sorted lowercased canonical headers, the
`"POST\n/\n\n..."` canonical request ending in `hex(sha256(body))`, the
four-step HMAC-SHA256 key chain over date/region/"ses"/"aws4_request", and
the hex HMAC signature) — a deterministic pure function of these inputs. -/
theorem sign_request_follows_spec (m : AmazonSesMailer) (body : String)
    (dt : DateTimeUtc) (tok : Option String) :
    m.sign_request body dt tok =
      sortHeaders (sesHeaders m body dt tok) ++
        [("Authorization",
          specAuthorization m.access_key m.secret m.region "ses"
            (amz_date dt) (amz_datetime dt) (sesHeaders m body dt tok) body)] := by
  cases tok with
  | none =>
      simp only [AmazonSesMailer.sign_request, specAuthorization,
        AmazonSesMailer.generate_signature, sesHeaders, SERVICE_NAME, ENCODING,
        List.append_nil, List.map_cons, List.map_nil]
      rw [show sortHeaders [("Content-Type", "application/x-www-form-urlencoded"),
            ("Host", m.host_header), ("X-Amz-Date", amz_datetime dt),
            ("Content-Length", toString (strBytes body).length)] =
          [("Content-Length", toString (strBytes body).length),
           ("Content-Type", "application/x-www-form-urlencoded"),
           ("Host", m.host_header), ("X-Amz-Date", amz_datetime dt)] from rfl]
      rw [show sortHeaders [(rustToLowercase "Content-Type", "application/x-www-form-urlencoded"),
            (rustToLowercase "Host", m.host_header),
            (rustToLowercase "X-Amz-Date", amz_datetime dt),
            (rustToLowercase "Content-Length", toString (strBytes body).length)] =
          [("content-length", toString (strBytes body).length),
           ("content-type", "application/x-www-form-urlencoded"),
           ("host", m.host_header), ("x-amz-date", amz_datetime dt)] from rfl]
      simp only [List.map_cons, List.map_nil,
        show rustToLowercase "Content-Length" = "content-length" from rfl,
        show rustToLowercase "Content-Type" = "content-type" from rfl,
        show rustToLowercase "Host" = "host" from rfl,
        show rustToLowercase "X-Amz-Date" = "x-amz-date" from rfl]
      rw [joinSep_newline_concat]
      simp only [List.map_cons, List.map_nil]
  | some t =>
      simp only [AmazonSesMailer.sign_request, specAuthorization,
        AmazonSesMailer.generate_signature, sesHeaders, SERVICE_NAME, ENCODING,
        List.cons_append, List.nil_append, List.map_cons, List.map_nil]
      rw [show sortHeaders [("Content-Type", "application/x-www-form-urlencoded"),
            ("Host", m.host_header), ("X-Amz-Date", amz_datetime dt),
            ("Content-Length", toString (strBytes body).length),
            ("X-Amz-Security-Token", t)] =
          [("Content-Length", toString (strBytes body).length),
           ("Content-Type", "application/x-www-form-urlencoded"),
           ("Host", m.host_header), ("X-Amz-Date", amz_datetime dt),
           ("X-Amz-Security-Token", t)] from rfl]
      rw [show sortHeaders [(rustToLowercase "Content-Type", "application/x-www-form-urlencoded"),
            (rustToLowercase "Host", m.host_header),
            (rustToLowercase "X-Amz-Date", amz_datetime dt),
            (rustToLowercase "Content-Length", toString (strBytes body).length),
            (rustToLowercase "X-Amz-Security-Token", t)] =
          [("content-length", toString (strBytes body).length),
           ("content-type", "application/x-www-form-urlencoded"),
           ("host", m.host_header), ("x-amz-date", amz_datetime dt),
           ("x-amz-security-token", t)] from rfl]
      simp only [List.map_cons, List.map_nil,
        show rustToLowercase "Content-Length" = "content-length" from rfl,
        show rustToLowercase "Content-Type" = "content-type" from rfl,
        show rustToLowercase "Host" = "host" from rfl,
        show rustToLowercase "X-Amz-Date" = "x-amz-date" from rfl,
        show rustToLowercase "X-Amz-Security-Token" = "x-amz-security-token" from rfl]
      rw [joinSep_newline_concat]
      simp only [List.map_cons, List.map_nil]

/-- C4. The built MIME message contains no trace of the BCC list: two
emails that differ only in `bcc` produce identical output for the same
boundary randomness and filesystem — in particular no `Bcc:` header line
is ever emitted, whatever BCC addresses were supplied. -/
theorem build_mime_ignores_bcc (us : Uuids) (fs : Fs) (email : Email)
    (l : List Address) :
    buildMimeMessage us fs { email with bcc := l } =
      buildMimeMessage us fs { email with bcc := [] } := rfl

/-- C5. With no `from`, building fails with `MissingField "from"`; with a
`from` but an empty `to` list it fails with `MissingField "to"`. The result
is an error value carrying no message bytes, and it is the same for every
filesystem `fs` and every boundary draw `us`, so no attachment content was
read and no encoding work depended on the email body. -/
theorem build_mime_missing_field (us : Uuids) (fs : Fs) (email : Email) :
    (email.fromAddr = none →
      buildMimeMessage us fs email = .error (.MissingField "from")) ∧
    (∀ sender, email.fromAddr = some sender → email.to = [] →
      buildMimeMessage us fs email = .error (.MissingField "to")) := by
  constructor
  · intro h
    simp [buildMimeMessage, h]
  · intro sender h ht
    simp [buildMimeMessage, h, ht]

/-- Witness for C5 at concrete inputs: an email lacking `from`, and one
with a `from` but an empty recipient list. -/
theorem build_mime_missing_field_witness :
    buildMimeMessage sampleUuids emptyFs { sampleEmail with fromAddr := none } =
      .error (.MissingField "from") ∧
    buildMimeMessage sampleUuids emptyFs { sampleEmail with «to» := [] } =
      .error (.MissingField "to") :=
  ⟨(build_mime_missing_field sampleUuids emptyFs
      { sampleEmail with fromAddr := none }).1 rfl,
   (build_mime_missing_field sampleUuids emptyFs
      { sampleEmail with «to» := [] }).2 sampleFrom rfl rfl⟩

/-- C3 counterexample. On an email whose lazy attachment read fails with
`AttachmentFileNotFound`, `build_mime_message` does NOT fail: it returns
`ok`, refuting the claim that the file I/O error is propagated to the
caller. -/
theorem build_swallows_read_error_cex :
    unreadableAttachment.get_data emptyFs =
      .error (.AttachmentFileNotFound "/tmp/missing.pdf") ∧
    (buildMimeMessage sampleUuids emptyFs lazyEmail).isOk = true :=
  ⟨rfl, rfl⟩

/-- C3 amended. With valid `from`/`to`, building the MIME message always
succeeds regardless of attachment readability: `base64_data` swallows any
`get_data` failure (`AttachmentFileNotFound` / `AttachmentReadError` /
`AttachmentMissingContent`) via `unwrap_or_default` and encodes the
attachment as empty content (the empty base64 string). -/
theorem build_encodes_unreadable_as_empty (us : Uuids) (fs : Fs)
    (email : Email) (sender : Address) (a : Attachment)
    (hf : email.fromAddr = some sender) (ht : email.to ≠ []) :
    (buildMimeMessage us fs email).isOk = true ∧
    ((a.get_data fs).isOk = false → a.base64_data fs = "") := by
  constructor
  · simp [buildMimeMessage, hf, ht, Except.isOk, Except.toBool]
  · intro herr
    unfold Attachment.base64_data
    cases hgd : a.get_data fs with
    | ok d => simp [hgd, Except.isOk, Except.toBool] at herr
    | error e => rfl

/-- Witness for C3's amended claim at the concrete unreadable input. -/
theorem build_encodes_unreadable_as_empty_witness :
    (buildMimeMessage sampleUuids emptyFs lazyEmail).isOk = true ∧
    unreadableAttachment.base64_data emptyFs = "" :=
  ⟨(build_encodes_unreadable_as_empty sampleUuids emptyFs lazyEmail sampleFrom
      unreadableAttachment rfl (by decide)).1,
   (build_encodes_unreadable_as_empty sampleUuids emptyFs lazyEmail sampleFrom
      unreadableAttachment rfl (by decide)).2 rfl⟩

/-- C7. With a non-empty display name, `formatted_rfc5322` escapes
backslashes first and then double quotes — in that exact order, which is
definitional in `escapeName` — wraps the escaped name in quotes, and
unescaping (parsing the quoted-string back) recovers the original name,
for every name including ones containing both `"` and `\`. -/
theorem rfc5322_escape_roundtrip (name email : String) (h : name ≠ "") :
    Address.formatted_rfc5322 ⟨some name, email⟩ =
      "\"" ++ escapeName name ++ "\" <" ++ email ++ ">" ∧
    escapeName name =
      rustReplaceChar (rustReplaceChar name '\\' "\\\\") '"' "\\\"" ∧
    unquoteName (escapeName name) = name := by
  refine ⟨?_, rfl, unquote_escape name⟩
  simp [Address.formatted_rfc5322, h]

/-- Witness for C7 on a name containing both a double quote and a
backslash. -/
theorem rfc5322_escape_roundtrip_witness :
    Address.formatted_rfc5322 ⟨some "A\"B\\C", "a@b.c"⟩ =
      "\"" ++ escapeName "A\"B\\C" ++ "\" <a@b.c>" ∧
    unquoteName (escapeName "A\"B\\C") = "A\"B\\C" :=
  ⟨(rfc5322_escape_roundtrip "A\"B\\C" "a@b.c" (by decide)).1,
   (rfc5322_escape_roundtrip "A\"B\\C" "a@b.c" (by decide)).2.2⟩

set_option maxRecDepth 16384 in
/-- C2 counterexample. For a text-only email with an inline attachment the
builder emits no `multipart/related` part and no `Content-ID` header at
all — the inline attachment is dropped — refuting the claimed
`multipart/related { bare text, inline parts }` structure. -/
theorem inline_without_html_cex :
    (buildMimeMessage sampleUuids emptyFs textInlineEmail).isOk = true ∧
    ¬ ("multipart/related".data <:+:
      ((buildMimeMessage sampleUuids emptyFs textInlineEmail).toOption.getD "").data) ∧
    ¬ ("Content-ID".data <:+:
      ((buildMimeMessage sampleUuids emptyFs textInlineEmail).toOption.getD "").data) := by
  refine ⟨rfl, ?_, ?_⟩ <;> decide

theorem scrubInline_is_inline (a : Attachment) :
    (scrubInline a).is_inline = a.is_inline := by
  unfold scrubInline
  split <;> rfl

theorem filter_scrub (l : List Attachment) :
    (l.map scrubInline).filter (fun a => !a.is_inline) =
      l.filter (fun a => !a.is_inline) := by
  induction l with
  | nil => rfl
  | cons a rest ih =>
      simp only [List.map_cons, List.filter_cons, scrubInline_is_inline]
      cases h : a.is_inline with
      | true => simpa [h] using ih
      | false =>
          have ha : scrubInline a = a := by
            unfold scrubInline
            simp [Attachment.is_inline] at h ⊢
            simp [h]
          simp [h, ha, ih]

theorem any_scrub (l : List Attachment) :
    (l.map scrubInline).any Attachment.is_inline = l.any Attachment.is_inline := by
  induction l with
  | nil => rfl
  | cons a rest ih => simp [List.any_cons, scrubInline_is_inline, ih]

theorem attachmentContent_text_no_html (us : Uuids) (fs : Fs) (email : Email)
    (htext : email.text_body.isSome = true) (hhtml : email.html_body = none) :
    attachmentContent us fs email =
      "Content-Type: multipart/mixed; boundary=\"" ++ ("----=_Mixed_" ++ us.mixed) ++ "\"\r\n\r\n" ++
      "--" ++ ("----=_Mixed_" ++ us.mixed) ++ "\r\n" ++
      ("Content-Type: text/plain; charset=utf-8\r\n\r\n" ++
        email.text_body.getD "" ++ "\r\n") ++
      String.join ((email.attachments.filter fun a => !a.is_inline).map
        (regularPart fs ("----=_Mixed_" ++ us.mixed))) ++
      "--" ++ ("----=_Mixed_" ++ us.mixed) ++ "--\r\n" := by
  unfold attachmentContent
  rw [hhtml]
  simp [htext]

/-- C2 amended. For a valid email with text, no HTML body and inline
attachments, the builder falls through to the plain-text branch of the
`multipart/mixed` case: the first part is the bare text body directly
under `multipart/mixed` (no `multipart/related`), only non-inline
attachments are emitted, and the inline attachments are dropped — the
output does not change when their content and identity are blanked out. -/
theorem inline_without_html_amended (us : Uuids) (fs : Fs) (email : Email)
    (sender : Address)
    (hf : email.fromAddr = some sender) (ht : email.to ≠ [])
    (htext : email.text_body.isSome = true) (hhtml : email.html_body = none)
    (hinl : email.attachments.any Attachment.is_inline = true) :
    buildMimeMessage us fs email =
      .ok (headerSection sender email ++
        ("Content-Type: multipart/mixed; boundary=\"" ++ ("----=_Mixed_" ++ us.mixed) ++ "\"\r\n\r\n" ++
         "--" ++ ("----=_Mixed_" ++ us.mixed) ++ "\r\n" ++
         ("Content-Type: text/plain; charset=utf-8\r\n\r\n" ++
           email.text_body.getD "" ++ "\r\n") ++
         String.join ((email.attachments.filter fun a => !a.is_inline).map
           (regularPart fs ("----=_Mixed_" ++ us.mixed))) ++
         "--" ++ ("----=_Mixed_" ++ us.mixed) ++ "--\r\n")) ∧
    buildMimeMessage us fs email =
      buildMimeMessage us fs
        { email with attachments := email.attachments.map scrubInline } := by
  have hne : email.attachments.isEmpty = false := by
    cases hatt : email.attachments with
    | nil => rw [hatt] at hinl; simp at hinl
    | cons a rest => rfl
  have hte : email.to.isEmpty = false := by
    cases hto : email.to with
    | nil => exact absurd hto ht
    | cons a rest => rfl
  have h1 : buildMimeMessage us fs email =
      .ok (headerSection sender email ++ attachmentContent us fs email) := by
    simp [buildMimeMessage, hf, hte, hne]
  constructor
  · rw [h1, attachmentContent_text_no_html us fs email htext hhtml]
  · have hne2 : (email.attachments.map scrubInline).isEmpty = false := by
      cases hatt : email.attachments with
      | nil => rw [hatt] at hne; simp at hne
      | cons a rest => rfl
    have h2 : buildMimeMessage us fs
        { email with attachments := email.attachments.map scrubInline } =
        .ok (headerSection sender email ++
          attachmentContent us fs
            { email with attachments := email.attachments.map scrubInline }) := by
      simp [buildMimeMessage, hf, hte, hne2]
      rfl
    rw [h1, h2, attachmentContent_text_no_html us fs email htext hhtml,
      attachmentContent_text_no_html us fs
        { email with attachments := email.attachments.map scrubInline } htext hhtml]
    simp only [filter_scrub]

/-- Witness for C2's amended claim at the concrete text+inline input. -/
theorem inline_without_html_amended_witness :
    buildMimeMessage sampleUuids emptyFs textInlineEmail =
      buildMimeMessage sampleUuids emptyFs
        { textInlineEmail with
          attachments := textInlineEmail.attachments.map scrubInline } :=
  (inline_without_html_amended sampleUuids emptyFs textInlineEmail sampleFrom
    rfl (by decide) rfl rfl rfl).2

theorem str_infix_of_decomp (p pre post w : String) (hw : w = pre ++ p ++ post) :
    p.data <:+: w.data := by
  subst hw
  simp only [String.data_append]
  exact List.infix_append _ _ _

/-- C10. When `reply_to` holds two or more addresses, the message contains
a `Reply-To` header line carrying the first address, and every later
address is silently omitted: the output is identical to building with
`reply_to` cut down to its first element (unlike To and Cc, whose lines
join every address). -/
theorem reply_to_uses_first_only (us : Uuids) (fs : Fs) (email : Email)
    (sender : Address) (r1 : Address) (rest : List Address)
    (hf : email.fromAddr = some sender) (ht : email.to ≠ [])
    (hr : email.reply_to = r1 :: rest) :
    buildMimeMessage us fs email =
      buildMimeMessage us fs { email with reply_to := [r1] } ∧
    ("Reply-To: " ++ r1.formatted ++ "\r\n").data <:+:
      ((buildMimeMessage us fs email).toOption.getD "").data := by
  have hte : email.to.isEmpty = false := by
    cases hto : email.to with
    | nil => exact absurd hto ht
    | cons a r => rfl
  constructor
  · simp [buildMimeMessage, headerSection, hr, simpleContent, attachmentContent]
  · have hval : buildMimeMessage us fs email =
        .ok (headerSection sender email ++
          (if !(!email.attachments.isEmpty) then
            simpleContent ("----=_Part_" ++ us.part) email
          else attachmentContent us fs email)) := by
      simp [buildMimeMessage, hf, hte]
    rw [hval]
    simp only [Except.toOption, Option.getD]
    apply str_infix_of_decomp _
      ("From: " ++ sender.formatted ++ "\r\n" ++
        ("To: " ++ joinSep ", " (email.to.map Address.formatted) ++ "\r\n") ++
        (if email.cc.isEmpty then ""
         else "Cc: " ++ joinSep ", " (email.cc.map Address.formatted) ++ "\r\n"))
      (("Subject: " ++ email.subject ++ "\r\n" ++ "MIME-Version: 1.0\r\n" ++
        String.join (email.headers.map fun (n, v) => n ++ ": " ++ v ++ "\r\n")) ++
       (if !(!email.attachments.isEmpty) then
          simpleContent ("----=_Part_" ++ us.part) email
        else attachmentContent us fs email))
    unfold headerSection
    rw [hr]
    simp only [List.head?_cons, String.append_assoc]

/-- Witness for C10 at a concrete email with two reply-to addresses. -/
theorem reply_to_uses_first_only_witness :
    buildMimeMessage sampleUuids emptyFs replyEmail =
      buildMimeMessage sampleUuids emptyFs
        { replyEmail with reply_to := [⟨none, "first@example.com"⟩] } ∧
    ("Reply-To: " ++ (⟨none, "first@example.com"⟩ : Address).formatted ++ "\r\n").data <:+:
      ((buildMimeMessage sampleUuids emptyFs replyEmail).toOption.getD "").data :=
  reply_to_uses_first_only sampleUuids emptyFs replyEmail sampleFrom
    ⟨none, "first@example.com"⟩ [⟨none, "second@example.com"⟩] rfl (by decide) rfl

theorem not_infix_marker (pre₁ s₁ pre₂ s₂ : String) (c : Char)
    (hc1 : c ∈ pre₁.data) (hc2 : c ∉ pre₂.data) (hs2 : HexLower s₂)
    (hchex : c ∉ hexDigits) :
    ¬ ((pre₁ ++ s₁).data <:+: (pre₂ ++ s₂).data) := by
  intro hinf
  have hmem : c ∈ (pre₂ ++ s₂).data := by
    apply hinf.subset
    simp only [String.data_append, List.mem_append]
    exact Or.inl hc1
  rw [String.data_append, List.mem_append] at hmem
  rcases hmem with h | h
  · exact hc2 h
  · exact hchex (hs2 c h)

theorem boundary_mixed_related (m r : String) (hm : HexLower m) (hr : HexLower r) :
    BoundaryIndependent ("----=_Mixed_" ++ m) ("----=_Related_" ++ r) :=
  ⟨not_infix_marker _ _ _ _ 'M' (by decide) (by decide) hr (by decide),
   not_infix_marker _ _ _ _ 'R' (by decide) (by decide) hm (by decide)⟩

theorem boundary_mixed_alt (m a : String) (hm : HexLower m) (ha : HexLower a) :
    BoundaryIndependent ("----=_Mixed_" ++ m) ("----=_Alt_" ++ a) :=
  ⟨not_infix_marker _ _ _ _ 'M' (by decide) (by decide) ha (by decide),
   not_infix_marker _ _ _ _ 'A' (by decide) (by decide) hm (by decide)⟩

theorem boundary_related_alt (r a : String) (hr : HexLower r) (ha : HexLower a) :
    BoundaryIndependent ("----=_Related_" ++ r) ("----=_Alt_" ++ a) :=
  ⟨not_infix_marker _ _ _ _ 'R' (by decide) (by decide) ha (by decide),
   not_infix_marker _ _ _ _ 'A' (by decide) (by decide) hr (by decide)⟩

theorem pairwiseTwo {R : String → String → Prop} {a b : String} (hab : R a b) :
    List.Pairwise R [a, b] := by
  constructor
  · intro x hx
    rcases List.mem_singleton.mp hx with rfl
    exact hab
  · exact List.pairwise_singleton R b

theorem pairwiseThree {R : String → String → Prop} {a b c : String}
    (hab : R a b) (hac : R a c) (hbc : R b c) : List.Pairwise R [a, b, c] := by
  constructor
  · intro x hx
    rcases List.mem_cons.mp hx with rfl | hx2
    · exact hab
    · rcases List.mem_singleton.mp hx2 with rfl
      exact hac
  · exact pairwiseTwo hbc

/-- C8. For every email and every draw of the boundary randomness (32
lowercase hex characters per level, as UUIDs without dashes are), the
boundary tokens of the active nesting levels of one message are pairwise
independent: none equals or is a substring of another, so an inner
boundary line can never terminate an outer part. -/
theorem boundaries_independent (us : Uuids) (email : Email)
    (hm : HexLower us.mixed) (hr : HexLower us.related) (ha : HexLower us.alt) :
    List.Pairwise BoundaryIndependent (activeBoundaries us email) := by
  unfold activeBoundaries
  by_cases hatt : (!email.attachments.isEmpty) = true
  · rw [if_neg (by simp [hatt])]
    by_cases hih : (email.attachments.any Attachment.is_inline && email.html_body.isSome) = true
    · rw [if_pos hih]
      by_cases htxt : email.text_body.isSome = true
      · rw [if_pos htxt]
        exact pairwiseThree (boundary_mixed_related us.mixed us.related hm hr)
          (boundary_mixed_alt us.mixed us.alt hm ha)
          (boundary_related_alt us.related us.alt hr ha)
      · rw [if_neg htxt]
        exact pairwiseTwo (boundary_mixed_related us.mixed us.related hm hr)
    · rw [if_neg hih]
      by_cases hth : (email.text_body.isSome && email.html_body.isSome) = true
      · rw [if_pos hth]
        exact pairwiseTwo (boundary_mixed_alt us.mixed us.alt hm ha)
      · rw [if_neg hth]
        exact List.pairwise_singleton _ _
  · rw [if_pos (by simpa using hatt)]
    by_cases hth : (email.text_body.isSome && email.html_body.isSome) = true
    · rw [if_pos hth]
      exact List.pairwise_singleton _ _
    · rw [if_neg hth]
      exact List.Pairwise.nil

/-- Witness for C8 at the deepest nesting (three active levels). -/
theorem boundaries_independent_witness :
    List.Pairwise BoundaryIndependent (activeBoundaries sampleUuids fullEmail) :=
  boundaries_independent sampleUuids fullEmail (by decide) (by decide) (by decide)

theorem splitFirstAt_none_iff (c : Char) (l : List Char) :
    splitFirstAt c l = none ↔ c ∉ l := by
  induction l with
  | nil => simp [splitFirstAt]
  | cons x rest ih =>
      by_cases hx : x = c
      · subst hx
        simp [splitFirstAt]
      · rw [splitFirstAt]
        rw [if_neg hx]
        cases hs : splitFirstAt c rest with
        | none =>
            have hrest : c ∉ rest := ih.mp hs
            simp only [hs]
            constructor
            · intro _ hmem
              rcases List.mem_cons.mp hmem with rfl | hmem2
              · exact hx rfl
              · exact hrest hmem2
            · intro _
              trivial
        | some p =>
            rcases p with ⟨pre, post⟩
            simp only [hs] at ih ⊢
            constructor
            · intro h; cases h
            · intro h
              have : c ∈ rest := by
                by_contra hc
                rw [← ih] at hc
                simp [hs] at hc
              exact absurd (List.mem_cons_of_mem _ this) h

theorem splitFirstAt_some_spec (c : Char) (l pre post : List Char)
    (h : splitFirstAt c l = some (pre, post)) :
    c ∉ pre ∧ l = pre ++ c :: post := by
  induction l generalizing pre post with
  | nil => simp [splitFirstAt] at h
  | cons x rest ih =>
      by_cases hx : x = c
      · subst hx
        rw [splitFirstAt, if_pos rfl] at h
        injection h with h2
        injection h2 with hpre hpost
        subst hpre; subst hpost
        simp
      · rw [splitFirstAt, if_neg hx] at h
        cases hs : splitFirstAt c rest with
        | none => rw [hs] at h; cases h
        | some p =>
            rcases p with ⟨pre2, post2⟩
            rw [hs] at h
            injection h with h2
            injection h2 with hpre hpost
            subst hpost
            obtain ⟨hnotmem, heq⟩ := ih pre2 post2 hs
            subst hpre
            constructor
            · intro hmem
              rcases List.mem_cons.mp hmem with rfl | hmem2
              · exact hx rfl
              · exact hnotmem hmem2
            · rw [List.cons_append, heq]

/-- C6. `to_ascii` fails with `InvalidAddress` (the "missing @ symbol"
message) exactly in the no-`@` case; with at least one `@` it splits at the
FIRST `@` — the local part (which contains no `@` and passes through
unmodified, special characters included) and the remainder as domain, a
second `@` landing inside the domain — and succeeds with
`local ++ "@" ++ idna(domain)` whenever the IDNA encoder succeeds, in
particular for every email with an `@` when the encoder is total. -/
theorem to_ascii_spec (idna : String → Except String String) (a : Address) :
    ('@' ∉ a.email.data →
      Address.to_ascii idna a =
        .error (.InvalidAddress ("'" ++ a.email ++ "' is missing @ symbol"))) ∧
    (∀ loc dom, splitFirstAt '@' a.email.data = some (loc, dom) →
      '@' ∉ loc ∧ a.email.data = loc ++ '@' :: dom ∧
      ∀ d, idna ⟨dom⟩ = .ok d →
        Address.to_ascii idna a = .ok ((⟨loc⟩ : String) ++ "@" ++ d)) ∧
    ('@' ∈ a.email.data → (∀ s, ∃ r, idna s = .ok r) →
      ∃ r, Address.to_ascii idna a = .ok r) := by
  refine ⟨?_, ?_, ?_⟩
  · intro hno
    unfold Address.to_ascii
    rw [(splitFirstAt_none_iff '@' a.email.data).mpr hno]
  · intro loc dom hsplit
    obtain ⟨hnot, heq⟩ := splitFirstAt_some_spec '@' _ loc dom hsplit
    refine ⟨hnot, heq, ?_⟩
    intro d hd
    unfold Address.to_ascii
    simp only [hsplit, hd]
  · intro hmem htot
    cases hsplit : splitFirstAt '@' a.email.data with
    | none => exact absurd hmem ((splitFirstAt_none_iff _ _).mp hsplit)
    | some p =>
        rcases p with ⟨loc, dom⟩
        obtain ⟨d, hd⟩ := htot ⟨dom⟩
        exact ⟨(⟨loc⟩ : String) ++ "@" ++ d,
          by unfold Address.to_ascii; simp only [hsplit, hd]⟩

/-- Witness for C6: a no-`@` address fails with the exact message, and an
address with two `@`s (and a `+` in the local part) still succeeds, the
second `@` staying inside the domain. -/
theorem to_ascii_spec_witness :
    Address.to_ascii (fun s => .ok s) ⟨none, "no-at-symbol"⟩ =
      .error (.InvalidAddress "'no-at-symbol' is missing @ symbol") ∧
    Address.to_ascii (fun s => .ok s) ⟨none, "user+tag@@example.com"⟩ =
      .ok ("user+tag" ++ "@" ++ "@example.com") :=
  ⟨(to_ascii_spec (fun s => .ok s) ⟨none, "no-at-symbol"⟩).1 (by decide),
   ((to_ascii_spec (fun s => .ok s) ⟨none, "user+tag@@example.com"⟩).2.1
      "user+tag".data "@example.com".data (by decide)).2.2 "@example.com" rfl⟩

/-- C9 counterexample. `Address::new ""` — and therefore the string
conversions that delegate to it — produces an address whose `email` field
is empty: the non-empty invariant is not enforced by the basic
constructors (the sanity check fails but only triggers a warning log). -/
theorem address_new_empty_cex :
    (Address.new "").email = "" ∧
    (Address.fromStr "").email = "" ∧
    Address.basic_sanity_check "" = false :=
  ⟨rfl, rfl, rfl⟩

/-- C9 amended. The basic constructors and conversions store the given
email string verbatim — so their result is non-empty exactly when the
input was — and only the strict-parse constructor guarantees non-emptiness,
given that the validity check rejects the empty string. -/
theorem address_email_verbatim :
    (∀ s : String, (Address.new s).email = s) ∧
    (∀ n s : String, (Address.with_name n s).email = s) ∧
    (∀ s : String, (Address.fromStr s).email = s) ∧
    (∀ (isValid : String → Bool) (s : String) (a : Address),
      isValid "" = false → Address.parse isValid s = .ok a → a.email ≠ "") := by
  refine ⟨fun s => rfl, fun n s => rfl, fun s => rfl, ?_⟩
  intro isValid s a hv hp
  unfold Address.parse at hp
  by_cases h : isValid s = true
  · rw [if_pos h] at hp
    injection hp with hp2
    rw [← hp2]
    intro habs
    have hs : s = "" := habs
    rw [hs, hv] at h
    cases h
  · rw [if_neg h] at hp
    cases hp

/-- Witness for C9's amended claim at concrete inputs. -/
theorem address_email_verbatim_witness :
    (Address.new "x@y.z").email = "x@y.z" ∧
    (⟨none, "x@y.z"⟩ : Address).email ≠ "" :=
  ⟨address_email_verbatim.1 "x@y.z",
   address_email_verbatim.2.2.2 (fun s => !s.isEmpty) "x@y.z" ⟨none, "x@y.z"⟩
     rfl rfl⟩

end Missive

